import Mathlib

/-!
Shallow embedding of the emotion-recognition demo UI core
(source: src/App.jsx). Scores are modelled as exact rationals,
JavaScript `Math.round` as round-half-up on rationals, and the
per-label random jitter as an explicit stream of draws.
-/

namespace EmotionRec

/-- JavaScript `Math.round` on exact rationals: round half toward positive
infinity, `Math.round x = floor (x + 1/2)`. -/
def jsRound (q : ℚ) : ℤ := ⌊q + 1/2⌋

/-- An unnormalized labelled score, as built in `mockPredictEmotion`:
objects of shape `{ label, score }`. -/
structure RawScore where
  label : String
  score : ℚ
deriving DecidableEq, Repr

/-- A normalized result, as returned by `normalizeScores`: the spread
`{ ...score, confidence }` keeps the label and raw score and adds the
integer confidence. -/
structure RankedResult where
  label : String
  score : ℚ
  confidence : ℤ
deriving DecidableEq, Repr

/-- `scores.reduce((sum, score) => sum + score.score, 0)`. -/
def sumScores (scores : List RawScore) : ℚ :=
  scores.foldl (fun sum score => sum + score.score) 0

/-- `const total = scores.reduce(...) || 1`: in JavaScript a zero sum is
falsy, so the total is coerced to 1 exactly when the sum is zero. -/
def totalOf (scores : List RawScore) : ℚ :=
  if sumScores scores = 0 then 1 else sumScores scores

/-- `normalizeScores` from App.jsx:
`scores.map(score => ({ ...score, confidence: Math.round((score.score / total) * 100) }))`. -/
def normalizeScores (scores : List RawScore) : List RankedResult :=
  scores.map (fun score =>
    ⟨score.label, score.score, jsRound (score.score / totalOf scores * 100)⟩)

/-- The two fields of a browser `File` object that `App.jsx` reads:
`name` and `type` (the MIME type). -/
structure JsFile where
  name : String
  type : String
deriving DecidableEq, Repr

/-- `const seed = (fileLike?.name || 'mic').length`: the fallback
identifier "mic" is used when there is no file object, and also when the
name is the empty string (falsy in JavaScript). -/
def seedOf (fileLike : Option JsFile) : ℕ :=
  (match fileLike with
   | none => "mic"
   | some f => if f.name = "" then "mic" else f.name).length

/-- The seed exactly as the specification words it: the length of the
display name of the handle, and the length of the fallback identifier
when no handle is present. Stated for comparison with `seedOf`. -/
def specSeed (fileLike : Option JsFile) : ℕ :=
  match fileLike with
  | none => "mic".length
  | some f => f.name.length

/-- The `base` array built in `mockPredictEmotion` from the seed. -/
def baseScores (seed : ℕ) : List RawScore :=
  [ ⟨"Calm", 32/100 + ((seed % 3 : ℕ) : ℚ) * (5/100)⟩,
    ⟨"Stressed", 28/100 + (((seed + 1) % 3 : ℕ) : ℚ) * (4/100)⟩,
    ⟨"Excited", 25/100 + (((seed + 2) % 3 : ℕ) : ℚ) * (3/100)⟩,
    ⟨"Neutral", 15/100⟩ ]

/-- The jitter step of `mockPredictEmotion`:
`base.map(item => ({ ...item, score: Math.max(0.05, item.score + (Math.random() - 0.5) * 0.12) }))`.
Each entry consumes one independent draw; `rand i` stands for the value
`(Math.random() - 0.5) * 0.12` drawn for the i-th entry. -/
def applyJitter (rand : ℕ → ℚ) (base : List RawScore) : List RawScore :=
  base.mapIdx (fun i item => ⟨item.label, max (5/100) (item.score + rand i)⟩)

/-- The comparator `(a, b) => b.confidence - a.confidence` as an order:
`a` may come before `b` exactly when the comparator value is nonpositive. -/
def confLE (a b : RankedResult) : Bool := decide (b.confidence ≤ a.confidence)

/-- `.sort((a, b) => b.confidence - a.confidence)`: a stable descending
sort on confidence (ECMAScript `Array.prototype.sort` is stable). -/
def sortByConfidenceDesc (l : List RankedResult) : List RankedResult :=
  l.mergeSort confLE

/-- `mockPredictEmotion` from App.jsx, with the 900 ms timer elided and
the random draws passed explicitly:
`return normalizeScores(jittered).sort((a, b) => b.confidence - a.confidence)`. -/
def mockPredictEmotion (fileLike : Option JsFile) (rand : ℕ → ℚ) : List RankedResult :=
  sortByConfidenceDesc (normalizeScores (applyJitter rand (baseScores (seedOf fileLike))))

/-- The React state that `App.jsx` keeps in `useState` hooks and that
`handleFile` may write to. -/
structure UIState where
  audioUrl : String
  audioName : String
  results : List RankedResult
  status : String
  error : String
deriving DecidableEq, Repr

/-- JavaScript `String.prototype.startsWith`, modelled on the character
sequences of the two strings. -/
def jsStartsWith (s p : String) : Bool := p.data.isPrefixOf s.data

/-- The message set by `handleFile` on a non-audio MIME type. -/
def invalidTypeMsg : String := "Please upload an audio file (wav, m4a, mp3)."

/-- `handleFile` from App.jsx: its synchronous effects on the UI state.
The returned Bool records whether `analyzeAudio` was invoked. On the
valid branch the synchronous prefix of `analyzeAudio`
(`setStatus('loading'); setError('')`) is included; `url` abstracts the
value of `URL.createObjectURL(file)`. -/
def handleFile (s : UIState) (file : JsFile) (url : String) : UIState × Bool :=
  if ¬ (jsStartsWith file.type "audio") then
    ({ s with error := invalidTypeMsg }, false)
  else
    ({ s with audioUrl := url, audioName := file.name,
              status := "loading", error := "" }, true)

end EmotionRec

namespace EmotionRec

/-! Helper lemmas shared by the claim theorems. -/

lemma seed_mod3 (fileLike : Option JsFile) :
    seedOf fileLike % 3 = specSeed fileLike % 3 := by
  rcases fileLike with _ | f
  · rfl
  · by_cases h : f.name = ""
    · simp only [seedOf, specSeed, h, if_pos]
      decide
    · simp [seedOf, specSeed, h]

lemma foldl_add_score (l : List RawScore) (a : ℚ) :
    l.foldl (fun sum s => sum + s.score) a = a + (l.map RawScore.score).sum := by
  induction l generalizing a with
  | nil => simp
  | cons x xs ih => simp [ih, add_assoc]

lemma sumScores_eq (l : List RawScore) :
    sumScores l = (l.map RawScore.score).sum := by
  simp [sumScores, foldl_add_score]

lemma confLE_trans : ∀ a b c : RankedResult, confLE a b → confLE b c → confLE a c := by
  intro a b c
  simp only [confLE, decide_eq_true_eq]
  omega

lemma confLE_total : ∀ a b : RankedResult, confLE a b || confLE b a := by
  intro a b
  simp only [confLE, Bool.or_eq_true, decide_eq_true_eq]
  omega

lemma sortDesc_pairwise (l : List RankedResult) :
    (sortByConfidenceDesc l).Pairwise (fun a b => b.confidence ≤ a.confidence) := by
  have h : (sortByConfidenceDesc l).Pairwise (fun a b => confLE a b = true) := by
    unfold sortByConfidenceDesc
    exact List.sorted_mergeSort confLE_trans confLE_total l
  exact h.imp (by intro a b hab; simpa [confLE] using hab)

lemma sortDesc_filter_confidence (l : List RankedResult) (c : ℤ) :
    (sortByConfidenceDesc l).filter (fun r => decide (r.confidence = c))
      = l.filter (fun r => decide (r.confidence = c)) := by
  have hpw : (l.filter (fun r => decide (r.confidence = c))).Pairwise
      (fun a b => confLE a b = true) := by
    apply List.pairwise_of_forall_mem_list
    intro a ha b hb
    have ha2 := List.of_mem_filter ha
    have hb2 := List.of_mem_filter hb
    simp only [decide_eq_true_eq] at ha2 hb2
    simp [confLE, ha2, hb2]
  have hsub : List.Sublist (l.filter (fun r => decide (r.confidence = c)))
      (sortByConfidenceDesc l) := by
    unfold sortByConfidenceDesc
    exact List.sublist_mergeSort confLE_trans confLE_total hpw (List.filter_sublist l)
  have hFF : (l.filter (fun r => decide (r.confidence = c))).filter
      (fun r => decide (r.confidence = c)) = l.filter (fun r => decide (r.confidence = c)) :=
    List.filter_eq_self.mpr (fun a ha => (List.mem_filter.mp ha).2)
  have hsub2 : List.Sublist (l.filter (fun r => decide (r.confidence = c)))
      ((sortByConfidenceDesc l).filter (fun r => decide (r.confidence = c))) :=
    hFF ▸ hsub.filter (fun r => decide (r.confidence = c))
  have hlen : ((sortByConfidenceDesc l).filter (fun r => decide (r.confidence = c))).length
      = (l.filter (fun r => decide (r.confidence = c))).length := by
    unfold sortByConfidenceDesc
    exact ((List.mergeSort_perm l confLE).filter (fun r => decide (r.confidence = c))).length_eq
  exact (hsub2.eq_of_length hlen.symm).symm

lemma jsRound_nonneg {q : ℚ} (h : 0 ≤ q) : 0 ≤ jsRound q := by
  unfold jsRound
  apply Int.le_floor.mpr
  push_cast
  linarith

lemma jsRound_le_hundred {q : ℚ} (h : q ≤ 100) : jsRound q ≤ 100 := by
  unfold jsRound
  have h2 : ⌊q + 1/2⌋ < 101 := Int.floor_lt.mpr (by push_cast; linarith)
  omega

lemma jsRound_le_half (q : ℚ) : (jsRound q : ℚ) ≤ q + 1/2 := Int.floor_le _

lemma half_lt_jsRound (q : ℚ) : q - 1/2 < (jsRound q : ℚ) := by
  have h := Int.sub_one_lt_floor (q + 1/2)
  unfold jsRound
  linarith

lemma conf_bound {s t : ℚ} (h0 : 0 < s) (hst : s ≤ t) :
    0 ≤ jsRound (s / t * 100) ∧ jsRound (s / t * 100) ≤ 100 := by
  have ht : 0 < t := lt_of_lt_of_le h0 hst
  have hx0 : 0 < s / t * 100 := by positivity
  have hx1 : s / t * 100 ≤ 100 := by
    have hd : s / t ≤ 1 := (div_le_one ht).mpr hst
    linarith
  exact ⟨jsRound_nonneg hx0.le, jsRound_le_hundred hx1⟩

end EmotionRec

namespace EmotionRec

/-! Claim theorems. -/

/-- Claim C1: for every non-empty list of raw scores, the Normalizer
assigns each entry `confidence = round(100 * score / total)`, where
`total` is the sum of all scores in the list, with the total treated as
1 when that sum is zero (the latter encoded in `totalOf`). -/
theorem normalizeScores_confidence_formula (scores : List RawScore) (hne : scores ≠ []) :
    normalizeScores scores
      = scores.map (fun s : RawScore =>
          (⟨s.label, s.score, jsRound (100 * s.score / totalOf scores)⟩ : RankedResult)) := by
  unfold normalizeScores
  refine List.map_congr_left ?_
  intro s _
  have h : s.score / totalOf scores * 100 = 100 * s.score / totalOf scores := by ring
  rw [h]

/-- Witness for C1 at the concrete singleton input with score 2/5. -/
theorem normalizeScores_confidence_formula_witness :
    normalizeScores [⟨"Calm", 2/5⟩]
      = List.map (fun s : RawScore =>
          (⟨s.label, s.score, jsRound (100 * s.score / totalOf [⟨"Calm", 2/5⟩])⟩ : RankedResult))
          ([⟨"Calm", 2/5⟩] : List RawScore) :=
  normalizeScores_confidence_formula [⟨"Calm", 2/5⟩] (by simp)

/-- Claim C2: for every clip handle (or its absence), the pre-jitter base
list has exactly one entry per label of the fixed set Calm, Stressed,
Excited, Neutral, in that order and with no duplicates, and each score is
given by the claimed formula at the seed the specification describes
(`specSeed`, the display-name length with the fallback identifier length
when no handle is present). The code consults the fallback also for an
empty display name, but that changes the seed from 0 to 3 and every
formula only uses the seed modulo 3, so the claimed values still hold. -/
theorem mockPredictEmotion_base_labels_and_formulas (fileLike : Option JsFile) :
    baseScores (seedOf fileLike)
      = [ ⟨"Calm", 32/100 + ((specSeed fileLike % 3 : ℕ) : ℚ) * (5/100)⟩,
          ⟨"Stressed", 28/100 + (((specSeed fileLike + 1) % 3 : ℕ) : ℚ) * (4/100)⟩,
          ⟨"Excited", 25/100 + (((specSeed fileLike + 2) % 3 : ℕ) : ℚ) * (3/100)⟩,
          ⟨"Neutral", 15/100⟩ ]
    ∧ (baseScores (seedOf fileLike)).map RawScore.label
        = ["Calm", "Stressed", "Excited", "Neutral"]
    ∧ ((baseScores (seedOf fileLike)).map RawScore.label).Nodup := by
  have h0 := seed_mod3 fileLike
  have h1 : (seedOf fileLike + 1) % 3 = (specSeed fileLike + 1) % 3 := by omega
  have h2 : (seedOf fileLike + 2) % 3 = (specSeed fileLike + 2) % 3 := by omega
  refine ⟨?_, ?_, ?_⟩
  · simp [baseScores, h0, h1, h2]
  · simp [baseScores]
  · simp [baseScores]

/-- Claim C3: for every list of raw scores, the output of the analysis
pipeline (normalize, then sort with the confidence comparator) is in
non-increasing order of confidence, and the entries of any one exact
confidence value appear in the same relative order as in the input
(stable sort). -/
theorem pipeline_output_sorted_and_stable (scores : List RawScore) :
    ((sortByConfidenceDesc (normalizeScores scores)).Pairwise
        (fun a b => b.confidence ≤ a.confidence))
    ∧ ∀ c : ℤ,
        (sortByConfidenceDesc (normalizeScores scores)).filter
            (fun r => decide (r.confidence = c))
          = (normalizeScores scores).filter (fun r => decide (r.confidence = c)) :=
  ⟨sortDesc_pairwise _, fun c => sortDesc_filter_confidence _ c⟩

/-- Claim C4: for every four-label list of raw scores with all scores
strictly positive, every output confidence of the Normalizer lies in
[0, 100] and the sum of the four output confidences lies in [97, 103]. -/
theorem normalizeScores_bounds_and_sum (scores : List RawScore) (hlen : scores.length = 4)
    (hpos : ∀ s ∈ scores, 0 < s.score) :
    (∀ r ∈ normalizeScores scores, 0 ≤ r.confidence ∧ r.confidence ≤ 100)
    ∧ 97 ≤ ((normalizeScores scores).map RankedResult.confidence).sum
    ∧ ((normalizeScores scores).map RankedResult.confidence).sum ≤ 103 := by
  have h4 : ∃ a b c d, scores = [a, b, c, d] := by
    rcases scores with _ | ⟨a, _ | ⟨b, _ | ⟨c, _ | ⟨d, _ | ⟨e, t⟩⟩⟩⟩⟩
    · simp at hlen
    · simp at hlen
    · simp at hlen
    · simp at hlen
    · exact ⟨a, b, c, d, rfl⟩
    · simp at hlen
  obtain ⟨a, b, c, d, rfl⟩ := h4
  have hpa := hpos a (by simp)
  have hpb := hpos b (by simp)
  have hpc := hpos c (by simp)
  have hpd := hpos d (by simp)
  have hsum : sumScores [a, b, c, d] = a.score + b.score + c.score + d.score := by
    simp [sumScores]
  have hS : 0 < sumScores [a, b, c, d] := by rw [hsum]; linarith
  have hT : totalOf [a, b, c, d] = sumScores [a, b, c, d] := if_neg hS.ne'
  have hTs : totalOf [a, b, c, d] = a.score + b.score + c.score + d.score := by
    rw [hT, hsum]
  constructor
  · intro r hr
    simp only [normalizeScores, List.mem_map, List.mem_cons, List.not_mem_nil, or_false] at hr
    obtain ⟨s, hs, rfl⟩ := hr
    rcases hs with rfl | rfl | rfl | rfl
    · exact conf_bound hpa (by rw [hTs]; linarith)
    · exact conf_bound hpb (by rw [hTs]; linarith)
    · exact conf_bound hpc (by rw [hTs]; linarith)
    · exact conf_bound hpd (by rw [hTs]; linarith)
  · have hmap : ((normalizeScores [a, b, c, d]).map RankedResult.confidence).sum
        = jsRound (a.score / totalOf [a, b, c, d] * 100)
          + jsRound (b.score / totalOf [a, b, c, d] * 100)
          + jsRound (c.score / totalOf [a, b, c, d] * 100)
          + jsRound (d.score / totalOf [a, b, c, d] * 100) := by
      simp [normalizeScores]
      ring
    have hxsum : a.score / totalOf [a, b, c, d] * 100
        + b.score / totalOf [a, b, c, d] * 100
        + c.score / totalOf [a, b, c, d] * 100
        + d.score / totalOf [a, b, c, d] * 100 = 100 := by
      rw [hTs]
      field_simp
      ring
    have l1 := jsRound_le_half (a.score / totalOf [a, b, c, d] * 100)
    have l2 := jsRound_le_half (b.score / totalOf [a, b, c, d] * 100)
    have l3 := jsRound_le_half (c.score / totalOf [a, b, c, d] * 100)
    have l4 := jsRound_le_half (d.score / totalOf [a, b, c, d] * 100)
    have g1 := half_lt_jsRound (a.score / totalOf [a, b, c, d] * 100)
    have g2 := half_lt_jsRound (b.score / totalOf [a, b, c, d] * 100)
    have g3 := half_lt_jsRound (c.score / totalOf [a, b, c, d] * 100)
    have g4 := half_lt_jsRound (d.score / totalOf [a, b, c, d] * 100)
    rw [hmap]
    constructor
    · have hq : (97:ℚ) ≤ (jsRound (a.score / totalOf [a, b, c, d] * 100) : ℚ)
          + (jsRound (b.score / totalOf [a, b, c, d] * 100) : ℚ)
          + (jsRound (c.score / totalOf [a, b, c, d] * 100) : ℚ)
          + (jsRound (d.score / totalOf [a, b, c, d] * 100) : ℚ) := by linarith
      exact_mod_cast hq
    · have hq : (jsRound (a.score / totalOf [a, b, c, d] * 100) : ℚ)
          + (jsRound (b.score / totalOf [a, b, c, d] * 100) : ℚ)
          + (jsRound (c.score / totalOf [a, b, c, d] * 100) : ℚ)
          + (jsRound (d.score / totalOf [a, b, c, d] * 100) : ℚ) ≤ 103 := by linarith
      exact_mod_cast hq

/-- Witness for C4 at the concrete score list 0.4, 0.3, 0.2, 0.1. -/
theorem normalizeScores_bounds_and_sum_witness :
    97 ≤ ((normalizeScores
        [⟨"Calm", 2/5⟩, ⟨"Stressed", 3/10⟩, ⟨"Excited", 1/5⟩, ⟨"Neutral", 1/10⟩]).map
          RankedResult.confidence).sum :=
  (normalizeScores_bounds_and_sum
    [⟨"Calm", 2/5⟩, ⟨"Stressed", 3/10⟩, ⟨"Excited", 1/5⟩, ⟨"Neutral", 1/10⟩]
    (by simp)
    (by
      intro s hs
      simp only [List.mem_cons, List.not_mem_nil, or_false] at hs
      rcases hs with rfl | rfl | rfl | rfl <;> norm_num)).2.1

end EmotionRec

namespace EmotionRec

/-- Claim C5, counterexample: with clip name "clip5.wav" the seed is 9,
but the pre-jitter base scores are not the claimed
Calm = 0.42, Stressed = 0.32, Excited = 0.31, Neutral = 0.15:
the Calm base is 0.32 + (9 mod 3) * 0.05 = 0.32, not 0.42. -/
theorem clip5_base_not_as_claimed :
    seedOf (some ⟨"clip5.wav", "audio/wav"⟩) = 9
    ∧ ¬ ((baseScores (seedOf (some ⟨"clip5.wav", "audio/wav"⟩))).map RawScore.score
          = [42/100, 32/100, 31/100, 15/100]) := by
  refine ⟨by decide, ?_⟩
  have h : seedOf (some ⟨"clip5.wav", "audio/wav"⟩) = 9 := by decide
  rw [h]
  norm_num [baseScores]

/-- Claim C5 as amended: invoking the pipeline with clip name
"clip5.wav" (seed 9) deterministically yields the pre-jitter base scores
Calm = 0.32, Stressed = 0.32, Excited = 0.31, Neutral = 0.15. -/
theorem clip5_base_values :
    seedOf (some ⟨"clip5.wav", "audio/wav"⟩) = 9
    ∧ baseScores (seedOf (some ⟨"clip5.wav", "audio/wav"⟩))
        = [⟨"Calm", 32/100⟩, ⟨"Stressed", 32/100⟩, ⟨"Excited", 31/100⟩, ⟨"Neutral", 15/100⟩] := by
  have h : seedOf (some ⟨"clip5.wav", "audio/wav"⟩) = 9 := by decide
  refine ⟨h, ?_⟩
  rw [h]
  norm_num [baseScores]

/-- Claim C6: for a raw-score list whose scores are all zero, the total
is coerced to 1 (so the Normalizer never divides by zero) and every
output confidence is 0. -/
theorem normalizeScores_zero_sum_guard (scores : List RawScore)
    (hz : ∀ s ∈ scores, s.score = 0) :
    totalOf scores = 1 ∧ ∀ r ∈ normalizeScores scores, r.confidence = 0 := by
  have hsum : sumScores scores = 0 := by
    rw [sumScores_eq]
    apply List.sum_eq_zero
    intro x hx
    rw [List.mem_map] at hx
    obtain ⟨s, hs, rfl⟩ := hx
    exact hz s hs
  have ht : totalOf scores = 1 := by simp [totalOf, hsum]
  refine ⟨ht, ?_⟩
  intro r hr
  simp only [normalizeScores, List.mem_map] at hr
  obtain ⟨s, hs, rfl⟩ := hr
  simp only [ht, hz s hs]
  norm_num [jsRound]

/-- Witness for C6 at a concrete all-zero score list. -/
theorem normalizeScores_zero_sum_guard_witness :
    totalOf [⟨"Calm", 0⟩, ⟨"Stressed", 0⟩] = 1 :=
  (normalizeScores_zero_sum_guard [⟨"Calm", 0⟩, ⟨"Stressed", 0⟩]
    (by
      intro s hs
      simp only [List.mem_cons, List.not_mem_nil, or_false] at hs
      rcases hs with rfl | rfl <;> rfl)).1

/-- Claim C7: for every file whose MIME type does not begin with "audio",
`handleFile` never invokes the analysis pipeline (the invocation flag is
false) and sets the error flag to exactly
"Please upload an audio file (wav, m4a, mp3).". -/
theorem handleFile_rejects_non_audio (s : UIState) (file : JsFile) (url : String)
    (h : ¬ (jsStartsWith file.type "audio" = true)) :
    (handleFile s file url).2 = false
    ∧ (handleFile s file url).1.error = "Please upload an audio file (wav, m4a, mp3)." := by
  simp [handleFile, h, invalidTypeMsg]

/-- Witness for C7 at a concrete state and a file of MIME type image/png. -/
theorem handleFile_rejects_non_audio_witness :
    (handleFile ⟨"", "", [], "idle", ""⟩ ⟨"cat.png", "image/png"⟩ "blob:demo").2 = false
    ∧ (handleFile ⟨"", "", [], "idle", ""⟩ ⟨"cat.png", "image/png"⟩ "blob:demo").1.error
        = "Please upload an audio file (wav, m4a, mp3)." :=
  handleFile_rejects_non_audio _ _ _ (by decide)

/-- Claim C8: whatever the clip handle and whatever the jitter draws in
the open interval (-0.06, 0.06), every post-jitter score is the max of
0.05 and base plus jitter (spelled out entrywise), hence at least 0.05;
the sum of the jittered scores is therefore nonzero, so the zero-sum
fallback of the Normalizer (total coerced to 1) is unreachable on
generator output. -/
theorem jitter_floor_guards_normalizer (fileLike : Option JsFile) (rand : ℕ → ℚ)
    (hr : ∀ i, -(6/100) < rand i ∧ rand i < 6/100) :
    applyJitter rand (baseScores (seedOf fileLike))
      = [ ⟨"Calm", max (5/100) (32/100 + ((seedOf fileLike % 3 : ℕ) : ℚ) * (5/100) + rand 0)⟩,
          ⟨"Stressed",
            max (5/100) (28/100 + (((seedOf fileLike + 1) % 3 : ℕ) : ℚ) * (4/100) + rand 1)⟩,
          ⟨"Excited",
            max (5/100) (25/100 + (((seedOf fileLike + 2) % 3 : ℕ) : ℚ) * (3/100) + rand 2)⟩,
          ⟨"Neutral", max (5/100) (15/100 + rand 3)⟩ ]
    ∧ (∀ s ∈ applyJitter rand (baseScores (seedOf fileLike)), 5/100 ≤ s.score)
    ∧ sumScores (applyJitter rand (baseScores (seedOf fileLike))) ≠ 0
    ∧ totalOf (applyJitter rand (baseScores (seedOf fileLike)))
        = sumScores (applyJitter rand (baseScores (seedOf fileLike))) := by
  have hrep : applyJitter rand (baseScores (seedOf fileLike))
      = [ ⟨"Calm", max (5/100) (32/100 + ((seedOf fileLike % 3 : ℕ) : ℚ) * (5/100) + rand 0)⟩,
          ⟨"Stressed",
            max (5/100) (28/100 + (((seedOf fileLike + 1) % 3 : ℕ) : ℚ) * (4/100) + rand 1)⟩,
          ⟨"Excited",
            max (5/100) (25/100 + (((seedOf fileLike + 2) % 3 : ℕ) : ℚ) * (3/100) + rand 2)⟩,
          ⟨"Neutral", max (5/100) (15/100 + rand 3)⟩ ] := by
    simp [applyJitter, baseScores, List.mapIdx_cons, List.mapIdx_nil]
  have hfloor : ∀ s ∈ applyJitter rand (baseScores (seedOf fileLike)), 5/100 ≤ s.score := by
    rw [hrep]
    intro s hs
    simp only [List.mem_cons, List.not_mem_nil, or_false] at hs
    rcases hs with rfl | rfl | rfl | rfl
    · exact le_max_left _ _
    · exact le_max_left _ _
    · exact le_max_left _ _
    · exact le_max_left _ _
  have hpos : 0 < sumScores (applyJitter rand (baseScores (seedOf fileLike))) := by
    rw [hrep]
    have m1 : (5:ℚ)/100
        ≤ max (5/100) (32/100 + ((seedOf fileLike % 3 : ℕ) : ℚ) * (5/100) + rand 0) :=
      le_max_left _ _
    have m2 : (5:ℚ)/100
        ≤ max (5/100) (28/100 + (((seedOf fileLike + 1) % 3 : ℕ) : ℚ) * (4/100) + rand 1) :=
      le_max_left _ _
    have m3 : (5:ℚ)/100
        ≤ max (5/100) (25/100 + (((seedOf fileLike + 2) % 3 : ℕ) : ℚ) * (3/100) + rand 2) :=
      le_max_left _ _
    have m4 : (5:ℚ)/100 ≤ max (5/100) (15/100 + rand 3) := le_max_left _ _
    simp only [sumScores, List.foldl_cons, List.foldl_nil]
    linarith
  exact ⟨hrep, hfloor, hpos.ne', if_neg hpos.ne'⟩

/-- Witness for C8 with no handle and all jitter draws equal to 0. -/
theorem jitter_floor_guards_normalizer_witness :
    sumScores (applyJitter (fun _ => 0) (baseScores (seedOf none))) ≠ 0 :=
  (jitter_floor_guards_normalizer none (fun _ => 0) (by norm_num)).2.2.1

/-- Claim C9: two invocations of the Score Generator on clip handles with
the same display name produce identical pre-jitter base values for all
four labels, while there exist jitter draws under which the post-jitter
scores of the two runs differ. -/
theorem base_deterministic_in_name (f g : JsFile) (hname : f.name = g.name) :
    baseScores (seedOf (some f)) = baseScores (seedOf (some g))
    ∧ ∃ r₁ r₂ : ℕ → ℚ,
        applyJitter r₁ (baseScores (seedOf (some f)))
          ≠ applyJitter r₂ (baseScores (seedOf (some f))) := by
  have hseed : seedOf (some f) = seedOf (some g) := by simp [seedOf, hname]
  refine ⟨by rw [hseed], ⟨fun _ => 0, fun _ => 1, ?_⟩⟩
  intro hEq
  simp only [applyJitter, baseScores, List.mapIdx_cons, List.mapIdx_nil,
    List.cons.injEq, RawScore.mk.injEq] at hEq
  obtain ⟨⟨-, hcalm⟩, -⟩ := hEq
  have hc : (0:ℚ) ≤ ((seedOf (some f) % 3 : ℕ) : ℚ) * (5/100) := by positivity
  rw [max_eq_right (by linarith), max_eq_right (by linarith)] at hcalm
  linarith

/-- Witness for C9: two handles sharing the name "a.wav" but differing in
MIME type get identical base values. -/
theorem base_deterministic_in_name_witness :
    baseScores (seedOf (some ⟨"a.wav", "audio/wav"⟩))
      = baseScores (seedOf (some ⟨"a.wav", "audio/mpeg"⟩)) :=
  (base_deterministic_in_name ⟨"a.wav", "audio/wav"⟩ ⟨"a.wav", "audio/mpeg"⟩ rfl).1

/-- Claim C10: for every file whose MIME type does not begin with
"audio", `handleFile` leaves the audio URL, the displayed audio name, the
results and the status unchanged, and the resulting state differs from
the prior state only in the error field. -/
theorem handleFile_invalid_frame (s : UIState) (file : JsFile) (url : String)
    (h : ¬ (jsStartsWith file.type "audio" = true)) :
    (handleFile s file url).1 = { s with error := invalidTypeMsg }
    ∧ (handleFile s file url).1.audioUrl = s.audioUrl
    ∧ (handleFile s file url).1.audioName = s.audioName
    ∧ (handleFile s file url).1.results = s.results
    ∧ (handleFile s file url).1.status = s.status := by
  simp [handleFile, h]

/-- Witness for C10 at a concrete state and a text file. -/
theorem handleFile_invalid_frame_witness :
    (handleFile ⟨"blob:old", "old.wav", [], "done", ""⟩ ⟨"notes.txt", "text/plain"⟩ "blob:new").1
      = { audioUrl := "blob:old", audioName := "old.wav", results := [], status := "done",
          error := invalidTypeMsg } :=
  (handleFile_invalid_frame ⟨"blob:old", "old.wav", [], "done", ""⟩ ⟨"notes.txt", "text/plain"⟩
    "blob:new" (by decide)).1

end EmotionRec
